import Mathlib

/-!
Shallow embedding of the sequence-execution core of the Cryostat-GUI
repository (src/Sequence.py, src/drivers.py), together with theorems
settling the specification claims about it.

Conventions of the embedding:
* Physical quantities (temperatures, currents, voltages, resistances,
  delays) are rationals (ℚ); the claims under study are exact algebraic
  identities or trace properties, not floating-point facts.
* Hardware and GUI side effects are recorded as explicit event traces.
* Python exceptions become `Except` / explicit error sums; the event
  trace accumulated before a failure is returned alongside the error.
* Unbounded polling loops take a fuel parameter; running out of fuel
  models the loop still spinning (the surrounding `finally` has not run).
-/

namespace CryostatGUI

/-! ## `measure_resistance` (src/Sequence.py, lines 30–54)

The configuration dict entries used by the function are
`current_applied` (possibly `None`) and `n_measurements`; the thread
handles are replaced by oracles: `tempRead k` is the k-th
`read_Temperatures()` call, `voltRead c` is a `read_Voltage()` call made
while the source is commanded to current `c` (it may raise).  `np.std`
needs a real square root, which no claim mentions, so the result keeps
the raw sample lists and the two means. -/

/-- Events produced by `measure_resistance`, in program order:
`loopcontrol_threads(threads, b)`, `read_Temperatures()`,
`getto_setCurrent_A(c)`, `setCurrent_A(c)`, `read_Voltage()`. -/
inductive MREvent where
  | loopcontrol (enabled : Bool)
  | readTemp (value : ℚ)
  | gettoSetCurrentA (value : ℚ)
  | setCurrentA (value : ℚ)
  | readVoltage (value : ℚ)
deriving DecidableEq, Repr

/-- Faults that can surface inside `measure_resistance`: the `TypeError`
Python raises when `None * currentfactor` is evaluated with an unset
`current_applied`, or a fault raised by a hardware read. -/
inductive PyFault where
  | typeError
  | injected
deriving DecidableEq, Repr

/-- The configuration entries of `conf` that `measure_resistance` uses:
`current_applied` (`None` ↦ `none`) and `n_measurements`. -/
structure MRConf where
  current_applied : Option ℚ
  n_measurements : ℕ
deriving DecidableEq, Repr

/-- `np.mean` of a list of rationals (mean of the empty list is left at
the junk value 0; every claim applies it to nonempty lists). -/
def listMean (l : List ℚ) : ℚ := l.sum / l.length

/-- Results of a completed `measure_resistance` call: the raw sample
lists and the two means (`T_mean_K`, `R_mean_Ohm`).  The standard
deviations `np.std` computes require a real square root and are not
mentioned by any claim, so they are not carried. -/
structure MRData where
  temps : List ℚ
  resistances : List ℚ
  T_mean_K : ℚ
  R_mean_Ohm : ℚ
deriving DecidableEq, Repr

/-- The flat list of polarity factors the double loop
`for idx in range(n): for currentfactor in [1, -1]:` iterates over. -/
def factorList : ℕ → List ℚ
  | 0 => []
  | n + 1 => factorList n ++ [1, -1]

/-- One polarity iteration of the measurement loop, for a set current
`i` and factor `f`: command `i*f` (prepare then commit), read the
voltage, multiply it by `f`, divide by `i*f`, append the quotient. -/
def mrPolarity (i f : ℚ) (voltRead : ℚ → Except PyFault ℚ) :
    List MREvent × Except PyFault ℚ :=
  let c := i * f
  match voltRead c with
  | .error e => ([MREvent.gettoSetCurrentA c, MREvent.setCurrentA c], .error e)
  | .ok v =>
      ([MREvent.gettoSetCurrentA c, MREvent.setCurrentA c, MREvent.readVoltage v],
       .ok ((v * f) / (i * f)))

/-- The measurement loop over a list of polarity factors.  Evaluating
`conf['current_applied'] * currentfactor` with `current_applied = None`
raises `TypeError` before any current command of that iteration. -/
def mrFactors (I : Option ℚ) (voltRead : ℚ → Except PyFault ℚ) :
    List ℚ → List MREvent × Except PyFault (List ℚ)
  | [] => ([], .ok [])
  | f :: fs =>
      match I with
      | none => ([], .error PyFault.typeError)
      | some i =>
          match mrPolarity i f voltRead with
          | (evs, .error e) => (evs, .error e)
          | (evs, .ok r) =>
              match mrFactors (some i) voltRead fs with
              | (evs', .error e) => (evs ++ evs', .error e)
              | (evs', .ok rs) => (evs ++ evs', .ok (r :: rs))

/-- `measure_resistance(conf)`: pause the control loops, read the
starting temperature, run the current-reversal loop, read the ending
temperature, resume the control loops, return the means.  On a fault
the events already performed are kept and the fault propagates — there
is no `finally`, so `loopcontrol_threads(threads, True)` is skipped. -/
def measure_resistance (conf : MRConf) (tempRead : ℕ → Except PyFault ℚ)
    (voltRead : ℚ → Except PyFault ℚ) :
    List MREvent × Except PyFault MRData :=
  match tempRead 0 with
  | .error e => ([MREvent.loopcontrol false], .error e)
  | .ok t0 =>
      match mrFactors conf.current_applied voltRead (factorList conf.n_measurements) with
      | (evs, .error e) =>
          (MREvent.loopcontrol false :: MREvent.readTemp t0 :: evs, .error e)
      | (evs, .ok rs) =>
          match tempRead 1 with
          | .error e =>
              (MREvent.loopcontrol false :: MREvent.readTemp t0 :: evs, .error e)
          | .ok t1 =>
              (MREvent.loopcontrol false :: MREvent.readTemp t0 :: evs
                ++ [MREvent.readTemp t1, MREvent.loopcontrol true],
               .ok { temps := [t0, t1], resistances := rs,
                     T_mean_K := listMean [t0, t1], R_mean_Ohm := listMean rs })

/-- The `R_mean_Ohm` field of a successful run, `none` on a fault. -/
def mrRMean (r : List MREvent × Except PyFault MRData) : Option ℚ :=
  r.2.toOption.map MRData.R_mean_Ohm

/-- The values of the committed current commands (`setCurrent_A`),
in order, in a trace. -/
def currentsCommanded (evs : List MREvent) : List ℚ :=
  evs.filterMap fun e =>
    match e with
    | MREvent.setCurrentA v => some v
    | _ => none

/-! ## `AbstractSerialDeviceDriver.clear_buffers` (src/drivers.py, lines 105–116)

The transport read is an oracle: either it returns a string or it
raises a Python exception, modelled as a class tag plus the `args`
tuple.  `except VisaIOError as e_visa` catches exactly the errors whose
class is `VisaIOError`; inside the handler the code re-checks
`isinstance(e_visa, type(self.timeouterror))` (the class of
`VisaIOError(-1073807339)`) and compares `e_visa.args` with
`self.timeouterror.args`. -/

/-- The exception classes that can reach the `except` clause of
`clear_buffers`: pyvisa's `VisaIOError`, or anything else. -/
inductive PyExcClass where
  | visaIOError
  | otherExc
deriving DecidableEq, Repr

/-- A Python exception as `clear_buffers` discriminates it: its class
and its `args` tuple (for `VisaIOError(code)` the args carry the
status code). -/
structure PyExc where
  cls : PyExcClass
  args : List Int
deriving DecidableEq, Repr

/-- `AbstractSerialDeviceDriver.timeouterror = VisaIOError(-1073807339)`
(src/drivers.py, line 47). -/
def timeouterror : PyExc := ⟨PyExcClass.visaIOError, [-1073807339]⟩

/-- `clear_buffers(self)`: perform `self.read()`; on a `VisaIOError`
whose class and `args` match `timeouterror`, swallow it (`pass`),
otherwise re-raise; non-`VisaIOError` exceptions are not caught at
all. -/
def clear_buffers (readResult : Except PyExc String) : Except PyExc Unit :=
  match readResult with
  | .ok _ => .ok ()
  | .error e =>
      if e.cls = PyExcClass.visaIOError then
        if e.cls = timeouterror.cls ∧ e.args = timeouterror.args then
          .ok ()
        else
          .error e
      else
        .error e

/-! ## `Sequence_Thread` (src/Sequence.py, lines 57–152)

The engine interprets a list of step dicts.  A step carries its `typ`
discriminator and the fields the two handled branches read
(`sequence_temperature` for `scan_T`; `Temp`, `Field`, `Delay` for
`Wait`).  Side effects are events; the shared telemetry value
`data['LakeShore350']['Sensor_1_K']` is an oracle `tel : ℕ → ℚ` indexed
by a global read counter that the run threads through its waits.  The
`__isRunning` flag is the cooperative cancellation token: `stop()` sets
it to `False`; the embedding takes its value for the run (`false` ↦
stop already requested).  Setpoint hardware commands go through a fault
oracle `hwOk`, modelling a transport fault raised by any of them. -/

/-- The four GUI windows whose `widgetSetpoints` the run brackets. -/
inductive Window where
  | ITC
  | ILM
  | IPS
  | LS350
deriving DecidableEq, Repr

/-- Events produced by a `Sequence_Thread.running()` call, in program
order: `widgetSetpoints.setEnabled(b)` on a window, the two-phase ITC
(VTI) and LakeShore350 (sample) setpoint commands, a telemetry read of
`Sensor_1_K`, a `time.sleep(secs)`, and the `sig_aborted.emit()`. -/
inductive EngEvent where
  | setEnabled (w : Window) (b : Bool)
  | gettosetTemperatureITC (value : ℚ)
  | setTemperatureITC
  | gettosetTempKLS (value : ℚ)
  | setTempKLS
  | readSensor1K (value : ℚ)
  | sleepFor (secs : ℚ)
  | abortedEmit
deriving DecidableEq, Repr

/-- Why a run stopped before exhausting its steps: the `BreakCondition`
raised at a cancellation check, a hardware fault raised by a setpoint
command, or a convergence loop still spinning (fuel exhausted). -/
inductive StopCause where
  | brk
  | fault
  | hung
deriving DecidableEq, Repr

/-- How a run ended: all steps done, `BreakCondition` caught
(`return 'Aborted!'`), a fault propagated through the `finally`, or
stuck inside an unconverged wait. -/
inductive RunOutcome where
  | completed
  | aborted
  | faulted
  | hung
deriving DecidableEq, Repr

/-- A step dict: its `typ` discriminator and the fields read by the two
handled branches. -/
structure SeqEntry where
  typ : String
  sequence_temperature : List ℚ
  Temp : ℚ
  Field : ℚ
  Delay : ℚ
deriving DecidableEq, Repr

/-- Lines 83–84: `temp_setpoint_VTI = temp_setpoint_sample -
self.temp_VTI_offset`, then clamp: `4.3 if temp_setpoint_VTI < 4.3 else
temp_setpoint_VTI`. -/
def temp_setpoint_VTI_calc (temp_setpoint_sample offset : ℚ) : ℚ :=
  let v := temp_setpoint_sample - offset
  if v < 43 / 10 then 43 / 10 else v

/-- Issue a list of hardware setpoint commands in order; a command on
which the fault oracle fails raises, keeping the commands already
issued. -/
def seqEmit (hwOk : EngEvent → Bool) : List EngEvent → List EngEvent × Option StopCause
  | [] => ([], none)
  | ev :: rest =>
      if hwOk ev then
        let p := seqEmit hwOk rest
        (ev :: p.1, p.2)
      else
        ([], some StopCause.fault)

/-- The `scan_T` branch (lines 82–92): for each sample-stage target,
compute the VTI setpoint, command the ITC (prepare, commit), command
the LakeShore350 (prepare, commit), then call the no-op
`check_Temp_in_Scan`.  No cancellation check occurs anywhere in this
branch. -/
def scanTTargets (hwOk : EngEvent → Bool) (offset : ℚ) :
    List ℚ → List EngEvent × Option StopCause
  | [] => ([], none)
  | tgt :: rest =>
      let vti := temp_setpoint_VTI_calc tgt offset
      let p := seqEmit hwOk
        [EngEvent.gettosetTemperatureITC vti, EngEvent.setTemperatureITC,
         EngEvent.gettosetTempKLS tgt, EngEvent.setTempKLS]
      match p.2 with
      | some c => (p.1, some c)
      | none =>
          let q := scanTTargets hwOk offset rest
          (p.1 ++ q.1, q.2)

/-- The polling loop of `wait_for_Temp` (lines 123–128), fuel-bounded:
while the held reading is farther than `threshold` from the target,
re-read the telemetry and sleep 0.1 s.  The loop never consults the
cancellation flag.  `t` is the index of the next telemetry read;
returns the accumulated events and `some t'` on convergence (`t'` the
next unread index), `none` when the fuel runs out with the loop still
spinning. -/
def wfTLoop (tel : ℕ → ℚ) (target threshold : ℚ) :
    ℕ → ℕ → ℚ → List EngEvent × Option ℕ
  | 0, t, cur =>
      if |cur - target| ≤ threshold then ([], some t) else ([], none)
  | fuel' + 1, t, cur =>
      if |cur - target| ≤ threshold then ([], some t)
      else
        (EngEvent.readSensor1K (tel t) :: EngEvent.sleepFor (1 / 10) ::
           (wfTLoop tel target threshold fuel' (t + 1) (tel t)).1,
         (wfTLoop tel target threshold fuel' (t + 1) (tel t)).2)

/-- `wait_for_Temp(Temp_target, threshold)` (lines 112–128): check the
cancellation flag once (raise `BreakCondition` if stop was requested),
take one locked telemetry read, then run the polling loop. -/
def wait_for_Temp (isRunning : Bool) (tel : ℕ → ℚ) (target threshold : ℚ)
    (fuel t : ℕ) : List EngEvent × ℕ × Option StopCause :=
  if isRunning then
    match wfTLoop tel target threshold fuel (t + 1) (tel t) with
    | (evs, some t') => (EngEvent.readSensor1K (tel t) :: evs, t', none)
    | (evs, none) =>
        (EngEvent.readSensor1K (tel t) :: evs, t + 1 + fuel, some StopCause.hung)
  else ([], t, some StopCause.brk)

/-- `wait_for_Field(Field)` (lines 130–144): check the cancellation
flag once, take an empty locked section (no telemetry is read, nothing
is compared), sleep 0.1 s once. -/
def wait_for_Field (isRunning : Bool) (t : ℕ) :
    List EngEvent × ℕ × Option StopCause :=
  if isRunning then ([EngEvent.sleepFor (1 / 10)], t, none)
  else ([], t, some StopCause.brk)

/-- The `Wait` branch (lines 96–99): `wait_for_Temp(entry['Temp'])`
with its default threshold 0.01, then `wait_for_Field(entry['Field'])`,
then `time.sleep(entry['Delay'])`. -/
def processWait (isRunning : Bool) (tel : ℕ → ℚ) (fuel : ℕ) (e : SeqEntry)
    (t : ℕ) : List EngEvent × ℕ × Option StopCause :=
  match wait_for_Temp isRunning tel e.Temp (1 / 100) fuel t with
  | (evs1, t1, some c) => (evs1, t1, some c)
  | (evs1, t1, none) =>
      match wait_for_Field isRunning t1 with
      | (evs2, t2, some c) => (evs1 ++ evs2, t2, some c)
      | (evs2, t2, none) =>
          (evs1 ++ evs2 ++ [EngEvent.sleepFor e.Delay], t2, none)

/-- One iteration of the `for entry in self.sequence` loop (lines
80–99): the `scan_T` branch, the `Wait` branch, or — for any other
`typ` — nothing at all. -/
def processEntry (isRunning : Bool) (tel : ℕ → ℚ) (hwOk : EngEvent → Bool)
    (offset : ℚ) (fuel : ℕ) (e : SeqEntry) (t : ℕ) :
    List EngEvent × ℕ × Option StopCause :=
  if e.typ = "scan_T" then
    let p := scanTTargets hwOk offset e.sequence_temperature
    (p.1, t, p.2)
  else if e.typ = "Wait" then
    processWait isRunning tel fuel e t
  else
    ([], t, none)

/-- The step loop: run the entries in order, stopping at the first one
that raises (`BreakCondition`, fault) or hangs. -/
def runEntries (isRunning : Bool) (tel : ℕ → ℚ) (hwOk : EngEvent → Bool)
    (offset : ℚ) (fuel : ℕ) :
    List SeqEntry → ℕ → List EngEvent × ℕ × Option StopCause
  | [], t => ([], t, none)
  | e :: es, t =>
      match processEntry isRunning tel hwOk offset fuel e t with
      | (evs, t', some c) => (evs, t', some c)
      | (evs, t', none) =>
          let q := runEntries isRunning tel hwOk offset fuel es t'
          (evs ++ q.1, q.2)

/-- The four `widgetSetpoints.setEnabled(False)` calls opening the
`try` block (lines 76–79). -/
def disableEvents : List EngEvent :=
  [EngEvent.setEnabled Window.ITC false, EngEvent.setEnabled Window.ILM false,
   EngEvent.setEnabled Window.IPS false, EngEvent.setEnabled Window.LS350 false]

/-- The four `widgetSetpoints.setEnabled(True)` calls of the `finally`
block (lines 104–107). -/
def enableEvents : List EngEvent :=
  [EngEvent.setEnabled Window.ITC true, EngEvent.setEnabled Window.ILM true,
   EngEvent.setEnabled Window.IPS true, EngEvent.setEnabled Window.LS350 true]

/-- `Sequence_Thread.running()` (lines 74–107): disable the four
setpoint widgets, run the steps; on `BreakCondition` emit
`sig_aborted` and return `'Aborted!'`; the `finally` re-enables the
widgets on completion, abort and fault alike — but a loop that never
converges never reaches it. -/
def running (seq : List SeqEntry) (isRunning : Bool) (tel : ℕ → ℚ)
    (hwOk : EngEvent → Bool) (offset : ℚ) (fuel : ℕ) :
    List EngEvent × RunOutcome :=
  match runEntries isRunning tel hwOk offset fuel seq 0 with
  | (evs, _, none) => (disableEvents ++ evs ++ enableEvents, RunOutcome.completed)
  | (evs, _, some StopCause.brk) =>
      (disableEvents ++ evs ++ (EngEvent.abortedEmit :: enableEvents),
       RunOutcome.aborted)
  | (evs, _, some StopCause.fault) =>
      (disableEvents ++ evs ++ enableEvents, RunOutcome.faulted)
  | (evs, _, some StopCause.hung) => (disableEvents ++ evs, RunOutcome.hung)

/-- Recogniser for the GUI enable/disable events, used to state that
the step loop itself never toggles the setpoint widgets. -/
def isSetEnabledEv : EngEvent → Bool
  | EngEvent.setEnabled _ _ => true
  | _ => false

/-- A trace that contains no GUI enable/disable event. -/
def cleanEvs (l : List EngEvent) : Prop :=
  ∀ ev ∈ l, isSetEnabledEv ev = false

/-- The committed current commands of a `measure_resistance` run whose
hardware reads all succeed (`tempRead`/`vr` give the returned values). -/
def mrCurrents (i : ℚ) (n : ℕ) (tempRead : ℕ → ℚ) (vr : ℚ → ℚ) : List ℚ :=
  currentsCommanded
    (measure_resistance ⟨some i, n⟩ (fun k => Except.ok (tempRead k))
      (fun c => Except.ok (vr c))).1

/-! ## Helper lemmas -/

theorem currentsCommanded_append (a b : List MREvent) :
    currentsCommanded (a ++ b) = currentsCommanded a ++ currentsCommanded b := by
  simp [currentsCommanded]

theorem factorList_ne_nil (n : ℕ) (hn : 1 ≤ n) : factorList n ≠ [] := by
  cases n with
  | zero => exact absurd hn (by decide)
  | succ m => simp [factorList]

theorem factorList_mem (n : ℕ) (f : ℚ) (hf : f ∈ factorList n) :
    f = 1 ∨ f = -1 := by
  induction n with
  | zero => simp [factorList] at hf
  | succ m ih =>
      simp only [factorList, List.mem_append] at hf
      rcases hf with hf | hf
      · exact ih hf
      · simpa using hf

theorem factorList_getLast (n : ℕ) (hn : 1 ≤ n) :
    (factorList n).getLast? = some (-1) := by
  cases n with
  | zero => exact absurd hn (by decide)
  | succ m =>
      have : factorList (m + 1) = (factorList m ++ [1]) ++ [-1] := by
        simp [factorList]
      rw [this, List.getLast?_concat]

theorem mrFactors_allOk (i : ℚ) (vr : ℚ → ℚ) (fs : List ℚ) :
    mrFactors (some i) (fun c => Except.ok (vr c)) fs
      = (fs.flatMap (fun f =>
            [MREvent.gettoSetCurrentA (i * f), MREvent.setCurrentA (i * f),
             MREvent.readVoltage (vr (i * f))]),
         Except.ok (fs.map (fun f => (vr (i * f) * f) / (i * f)))) := by
  induction fs with
  | nil => rfl
  | cons f fs ih => simp [mrFactors, mrPolarity, ih]

theorem currentsCommanded_bind (i : ℚ) (vr : ℚ → ℚ) (fs : List ℚ) :
    currentsCommanded (fs.flatMap fun f =>
        [MREvent.gettoSetCurrentA (i * f), MREvent.setCurrentA (i * f),
         MREvent.readVoltage (vr (i * f))])
      = fs.map (fun f => i * f) := by
  induction fs with
  | nil => rfl
  | cons f fs ih =>
      simp only [List.flatMap_cons]
      rw [currentsCommanded_append, ih]
      rfl

/-! ## Claim theorems -/

/-- C1: the claim asserts that with simulated readings
`V(±I) = ±I·R + V_off` the measurement returns `R_mean = R`
independently of `V_off`.  Evaluating the code at `R = 2`, `V_off = 1`,
`I = 1`, one measurement pair, shows it returns `R_mean = 1` instead of
`2`: multiplying the voltage by the polarity *and* dividing by
`appliedCurrent * polarity` cancels the polarity, so the averaged
samples are `V(pI)/I` and the mean is `V_off/I` — the resistance, not
the offset, is what cancels. -/
theorem C1_measure_resistance_offset_survives :
    mrRMean (measure_resistance ⟨some 1, 1⟩ (fun _ => Except.ok 4)
        (fun c => Except.ok (c * 2 + 1))) = some 1 ∧
    mrRMean (measure_resistance ⟨some 1, 1⟩ (fun _ => Except.ok 4)
        (fun c => Except.ok (c * 2 + 1))) ≠ some 2 := by
  have h : mrRMean (measure_resistance ⟨some 1, 1⟩ (fun _ => Except.ok 4)
      (fun c => Except.ok (c * 2 + 1))) = some 1 := by
    simp [measure_resistance, mrFactors, mrPolarity, factorList, mrRMean, listMean,
          Except.toOption]
    norm_num
  refine ⟨h, ?_⟩
  rw [h]
  intro hc
  exact absurd (Option.some.inj hc) (by norm_num)

/-- C2: the claim asserts that once `stop()` has set the cancellation
token, no further hardware writes happen — in particular a `scan_T`
step issues no setpoint commands.  Evaluating a run whose token is
already set before it starts (`__isRunning = False` throughout), on the
sequence `[scan_T{[10]}, Wait{...}]`, shows all four setpoint commands
of the `scan_T` step are still issued: the `scan_T` branch contains no
cancellation check, and `wait_for_Temp` checks the flag only once at
entry, never inside its polling loop. -/
theorem C2_scanT_setpoints_after_stop :
    running [⟨"scan_T", [10], 0, 0, 0⟩, ⟨"Wait", [], 43 / 10, 0, 1⟩] false
        (fun _ => 0) (fun _ => true) 5 10
      = (disableEvents ++
          [EngEvent.gettosetTemperatureITC 5, EngEvent.setTemperatureITC,
           EngEvent.gettosetTempKLS 10, EngEvent.setTempKLS] ++
          (EngEvent.abortedEmit :: enableEvents), RunOutcome.aborted) ∧
    EngEvent.setTemperatureITC ∈
      (running [⟨"scan_T", [10], 0, 0, 0⟩, ⟨"Wait", [], 43 / 10, 0, 1⟩] false
        (fun _ => 0) (fun _ => true) 5 10).1 := by
  have h : running [⟨"scan_T", [10], 0, 0, 0⟩, ⟨"Wait", [], 43 / 10, 0, 1⟩] false
        (fun _ => 0) (fun _ => true) 5 10
      = (disableEvents ++
          [EngEvent.gettosetTemperatureITC 5, EngEvent.setTemperatureITC,
           EngEvent.gettosetTempKLS 10, EngEvent.setTempKLS] ++
          (EngEvent.abortedEmit :: enableEvents), RunOutcome.aborted) := by
    simp [running, runEntries, processEntry, processWait, wait_for_Temp, wait_for_Field,
          scanTTargets, seqEmit, temp_setpoint_VTI_calc, disableEvents, enableEvents]
    norm_num
  refine ⟨h, ?_⟩
  rw [h]
  simp [disableEvents, enableEvents]

/-- C3 counterexample: the claim asserts that with `appliedCurrent`
unset the measurement fails before any hardware interaction — no
control loop paused, no temperature read.  Evaluating the code with
`current_applied = None` and one planned measurement shows the control
loops *are* paused and a temperature *is* read before the `TypeError`
surfaces. -/
theorem C3_counterexample_pause_and_read_happen :
    MREvent.loopcontrol false ∈
      (measure_resistance ⟨none, 1⟩ (fun _ => Except.ok 5) (fun _ => Except.ok 0)).1 ∧
    MREvent.readTemp 5 ∈
      (measure_resistance ⟨none, 1⟩ (fun _ => Except.ok 5) (fun _ => Except.ok 0)).1 ∧
    (measure_resistance ⟨none, 1⟩ (fun _ => Except.ok 5) (fun _ => Except.ok 0)).2
      = Except.error PyFault.typeError := by
  refine ⟨by decide, by decide, rfl⟩

/-- C3 amended: with `appliedCurrent` unset and at least one planned
measurement, `measure_resistance` fails with a `TypeError` when the
first `current_applied * currentfactor` is evaluated, so no current is
ever commanded — but only after the control loops have been paused and
one temperature read; the control loops are not resumed. -/
theorem C3_unset_current_fails_after_pause (tempRead : ℕ → Except PyFault ℚ)
    (voltRead : ℚ → Except PyFault ℚ) (n : ℕ) (t0 : ℚ)
    (hn : 1 ≤ n) (h0 : tempRead 0 = Except.ok t0) :
    measure_resistance ⟨none, n⟩ tempRead voltRead
      = ([MREvent.loopcontrol false, MREvent.readTemp t0],
         Except.error PyFault.typeError) := by
  obtain ⟨f, fs, hf⟩ : ∃ f fs, factorList n = f :: fs := by
    rcases h : factorList n with _ | ⟨f, fs⟩
    · exact absurd h (factorList_ne_nil n hn)
    · exact ⟨f, fs, rfl⟩
  simp [measure_resistance, h0, hf, mrFactors]

/-- Witness for `C3_unset_current_fails_after_pause` at a concrete
configuration. -/
theorem C3_unset_current_fails_after_pause_witness :
    measure_resistance ⟨none, 1⟩ (fun _ => Except.ok 5) (fun _ => Except.ok 0)
      = ([MREvent.loopcontrol false, MREvent.readTemp 5],
         Except.error PyFault.typeError) :=
  C3_unset_current_fails_after_pause (fun _ => Except.ok 5) (fun _ => Except.ok 0)
    1 5 le_rfl rfl

/-- C5: the intermediate-stage (VTI) setpoint computed by the `scan_T`
branch equals `max(4.3, t - offset)`, and for targets `[10, 3]` with
offset `5` the computed setpoints are `[5.0, 4.3]`. -/
theorem C5_vti_setpoint_is_clamped_difference :
    (∀ t offset : ℚ,
        temp_setpoint_VTI_calc t offset = max (43 / 10) (t - offset)) ∧
    List.map (fun t => temp_setpoint_VTI_calc t 5) [10, 3] = [5, 43 / 10] := by
  constructor
  · intro t offset
    unfold temp_setpoint_VTI_calc
    dsimp only
    split_ifs with h
    · exact (max_eq_left h.le).symm
    · exact (max_eq_right (not_lt.mp h)).symm
  · simp [temp_setpoint_VTI_calc]
    norm_num

/-- C6: if the first telemetry reading of a temperature convergence
wait is already within the threshold of the target and cancellation
was not requested, `wait_for_Temp` returns converged immediately —
its trace is the single initial read, with no sleep event. -/
theorem C6_wait_converged_immediately (tel : ℕ → ℚ) (target threshold : ℚ)
    (fuel t : ℕ) (h : |tel t - target| ≤ threshold) :
    wait_for_Temp true tel target threshold fuel t
      = ([EngEvent.readSensor1K (tel t)], t + 1, none) ∧
    ∀ d, EngEvent.sleepFor d ∉ (wait_for_Temp true tel target threshold fuel t).1 := by
  have hloop : wfTLoop tel target threshold fuel (t + 1) (tel t) = ([], some (t + 1)) := by
    cases fuel <;> simp [wfTLoop, h]
  have hmain : wait_for_Temp true tel target threshold fuel t
      = ([EngEvent.readSensor1K (tel t)], t + 1, none) := by
    simp [wait_for_Temp, hloop]
  refine ⟨hmain, ?_⟩
  intro d
  rw [hmain]
  simp

/-- Witness for `C6_wait_converged_immediately` at a concrete input. -/
theorem C6_wait_converged_immediately_witness :
    |(fun _ : ℕ => (5 : ℚ)) 0 - 5| ≤ 1 / 100 ∧
    wait_for_Temp true (fun _ => 5) 5 (1 / 100) 0 0
      = ([EngEvent.readSensor1K 5], 1, none) :=
  ⟨by norm_num,
   (C6_wait_converged_immediately (fun _ => 5) 5 (1 / 100) 0 0 (by norm_num)).1⟩

/-- C7: the claim asserts the control-loop pause (step 1) and resume
(step 5) are paired even when an intermediate step fails.  Evaluating
the code with a voltage read that raises shows the pause happens, the
fault propagates, and the resume (`loopcontrol_threads(threads, True)`)
never runs — there is no `finally` pairing them. -/
theorem C7_no_resume_after_fault :
    MREvent.loopcontrol false ∈
      (measure_resistance ⟨some 1, 1⟩ (fun _ => Except.ok 4)
        (fun _ => Except.error PyFault.injected)).1 ∧
    MREvent.loopcontrol true ∉
      (measure_resistance ⟨some 1, 1⟩ (fun _ => Except.ok 4)
        (fun _ => Except.error PyFault.injected)).1 ∧
    (measure_resistance ⟨some 1, 1⟩ (fun _ => Except.ok 4)
        (fun _ => Except.error PyFault.injected)).2
      = Except.error PyFault.injected := by
  refine ⟨by decide, by decide, rfl⟩

/-- C8: an error raised by the buffer-clearing read is swallowed
exactly when it matches the benign timeout signature — the class and
`args` of `VisaIOError(-1073807339)` — and propagates unchanged
otherwise. -/
theorem C8_clear_buffers_swallow_iff_timeout (e : PyExc) :
    clear_buffers (Except.error e)
      = if e.cls = timeouterror.cls ∧ e.args = timeouterror.args then
          Except.ok ()
        else
          Except.error e := by
  rcases e with ⟨cls, args⟩
  cases cls <;> simp [clear_buffers, timeouterror]

/-- C9: with `appliedCurrent` set to a nonzero `i` and at least one
planned measurement, the committed current commands of a fault-free
`measure_resistance` run are exactly `i·f` over the factor sequence
`[1, -1]` repeated `n_measurements` times — so the last command is
`-i`, none commands zero, and no command follows the final `-i`: the
source is left driving `-appliedCurrent`. -/
theorem C9_source_left_at_negative_current (i : ℚ) (hi : i ≠ 0) (n : ℕ)
    (hn : 1 ≤ n) (tempRead : ℕ → ℚ) (vr : ℚ → ℚ) :
    mrCurrents i n tempRead vr = (factorList n).map (fun f => i * f) ∧
    (mrCurrents i n tempRead vr).getLast? = some (-i) ∧
    ∀ c ∈ mrCurrents i n tempRead vr, c ≠ 0 := by
  have h1 : mrCurrents i n tempRead vr = (factorList n).map (fun f => i * f) := by
    unfold mrCurrents
    rw [measure_resistance]
    simp only [mrFactors_allOk i vr (factorList n)]
    rw [currentsCommanded]
    simp only [List.filterMap_cons, List.filterMap_append]
    rw [← currentsCommanded, ← currentsCommanded, currentsCommanded_bind]
    simp [currentsCommanded]
  refine ⟨h1, ?_, ?_⟩
  · rw [h1]
    cases n with
    | zero => exact absurd hn (by decide)
    | succ m =>
        have hsplit : (factorList (m + 1)).map (fun f => i * f)
            = ((factorList m).map (fun f => i * f) ++ [i * 1]) ++ [i * -1] := by
          simp [factorList]
        rw [hsplit, List.getLast?_concat]
        norm_num
  · intro c hc
    rw [h1] at hc
    obtain ⟨f, hf, hc⟩ := List.mem_map.mp hc
    rcases factorList_mem n f hf with rfl | rfl
    · rw [← hc]
      simpa using hi
    · rw [← hc]
      simpa using hi

/-- Witness for `C9_source_left_at_negative_current` at a concrete
configuration. -/
theorem C9_source_left_at_negative_current_witness :
    (1 : ℚ) ≠ 0 ∧
    (mrCurrents 1 1 (fun _ => 4) (fun c => c)).getLast? = some (-1) :=
  ⟨one_ne_zero,
   (C9_source_left_at_negative_current 1 one_ne_zero 1 le_rfl
      (fun _ => 4) (fun c => c)).2.1⟩

/-- C10: a step whose `typ` discriminator is neither `"scan_T"` nor
`"Wait"` is silently skipped — deleting it from the sequence changes
nothing about the run: same trace (no hardware write, no wait for it),
same outcome, subsequent steps executed identically. -/
theorem C10_unknown_step_is_silently_skipped (xs ys : List SeqEntry)
    (e : SeqEntry) (h1 : e.typ ≠ "scan_T") (h2 : e.typ ≠ "Wait")
    (isRunning : Bool) (tel : ℕ → ℚ) (hwOk : EngEvent → Bool) (offset : ℚ)
    (fuel : ℕ) :
    running (xs ++ e :: ys) isRunning tel hwOk offset fuel
      = running (xs ++ ys) isRunning tel hwOk offset fuel := by
  have hstep : ∀ t, processEntry isRunning tel hwOk offset fuel e t = ([], t, none) := by
    intro t
    simp [processEntry, h1, h2]
  have hrun : ∀ t, runEntries isRunning tel hwOk offset fuel (xs ++ e :: ys) t
      = runEntries isRunning tel hwOk offset fuel (xs ++ ys) t := by
    intro t
    induction xs generalizing t with
    | nil =>
        rw [List.nil_append, List.nil_append, runEntries, hstep]
        rcases hq : runEntries isRunning tel hwOk offset fuel ys t with ⟨evs, rest⟩
        simp [hq]
    | cons a as ih =>
        rw [List.cons_append, List.cons_append, runEntries, runEntries]
        rcases hp : processEntry isRunning tel hwOk offset fuel a t with ⟨evs, t', r⟩
        cases r with
        | none => simp [ih]
        | some c => rfl
  unfold running
  rw [hrun]

/-- Witness for `C10_unknown_step_is_silently_skipped`: a one-step
sequence whose only step has the unknown discriminator `"foo"` runs
exactly like the empty sequence. -/
theorem C10_unknown_step_is_silently_skipped_witness :
    running [⟨"foo", [], 0, 0, 0⟩] true (fun _ => 0) (fun _ => true) 5 0
      = running [] true (fun _ => 0) (fun _ => true) 5 0 :=
  C10_unknown_step_is_silently_skipped [] [] ⟨"foo", [], 0, 0, 0⟩
    (by decide) (by decide) true (fun _ => 0) (fun _ => true) 5 0

theorem seqEmit_subset (hwOk : EngEvent → Bool) (evs : List EngEvent) :
    ∀ ev ∈ (seqEmit hwOk evs).1, ev ∈ evs := by
  induction evs with
  | nil => intro ev hm; simp [seqEmit] at hm
  | cons a as ih =>
      intro ev hm
      rw [seqEmit] at hm
      by_cases ha : hwOk a
      · simp only [ha, if_true, List.mem_cons] at hm
        rcases hm with rfl | hm
        · exact List.mem_cons_self _ _
        · exact List.mem_cons_of_mem _ (ih ev hm)
      · simp [ha] at hm

theorem scanTTargets_clean (hwOk : EngEvent → Bool) (offset : ℚ)
    (tgts : List ℚ) : cleanEvs (scanTTargets hwOk offset tgts).1 := by
  induction tgts with
  | nil => intro ev hm; simp [scanTTargets] at hm
  | cons tgt rest ih =>
      intro ev hm
      rw [scanTTargets] at hm
      have hsub := seqEmit_subset hwOk
        [EngEvent.gettosetTemperatureITC (temp_setpoint_VTI_calc tgt offset),
         EngEvent.setTemperatureITC,
         EngEvent.gettosetTempKLS tgt, EngEvent.setTempKLS]
      split at hm
      · have := hsub ev hm
        simp at this
        rcases this with rfl | rfl | rfl | rfl <;> rfl
      · simp only [List.mem_append] at hm
        rcases hm with hm | hm
        · have := hsub ev hm
          simp at this
          rcases this with rfl | rfl | rfl | rfl <;> rfl
        · exact ih ev hm

theorem wfTLoop_clean (tel : ℕ → ℚ) (target threshold : ℚ) :
    ∀ (fuel t : ℕ) (cur : ℚ), cleanEvs (wfTLoop tel target threshold fuel t cur).1 := by
  intro fuel
  induction fuel with
  | zero =>
      intro t cur ev hm
      rw [wfTLoop] at hm
      split at hm <;> simp at hm
  | succ m ih =>
      intro t cur ev hm
      rw [wfTLoop] at hm
      split at hm
      · simp at hm
      · simp only [List.mem_cons] at hm
        rcases hm with rfl | rfl | hm
        · rfl
        · rfl
        · exact ih (t + 1) (tel t) ev hm

theorem wait_for_Temp_clean (isRunning : Bool) (tel : ℕ → ℚ)
    (target threshold : ℚ) (fuel t : ℕ) :
    cleanEvs (wait_for_Temp isRunning tel target threshold fuel t).1 := by
  intro ev hm
  rw [wait_for_Temp] at hm
  split at hm
  · rcases hL : wfTLoop tel target threshold fuel (t + 1) (tel t) with ⟨evsL, rL⟩
    have hLc := wfTLoop_clean tel target threshold fuel (t + 1) (tel t)
    rw [hL] at hm hLc
    cases rL with
    | some t' =>
        simp only [List.mem_cons] at hm
        rcases hm with rfl | hm
        · rfl
        · exact hLc ev hm
    | none =>
        simp only [List.mem_cons] at hm
        rcases hm with rfl | hm
        · rfl
        · exact hLc ev hm
  · simp at hm

theorem wait_for_Field_clean (isRunning : Bool) (t : ℕ) :
    cleanEvs (wait_for_Field isRunning t).1 := by
  intro ev hm
  rw [wait_for_Field] at hm
  split at hm
  · simp at hm
    subst hm
    rfl
  · simp at hm

theorem processWait_clean (isRunning : Bool) (tel : ℕ → ℚ) (fuel : ℕ)
    (e : SeqEntry) (t : ℕ) : cleanEvs (processWait isRunning tel fuel e t).1 := by
  intro ev hm
  rw [processWait] at hm
  rcases hT : wait_for_Temp isRunning tel e.Temp (1 / 100) fuel t with ⟨evs1, t1, r1⟩
  have hTc := wait_for_Temp_clean isRunning tel e.Temp (1 / 100) fuel t
  rw [hT] at hm hTc
  cases r1 with
  | some c =>
      dsimp only at hm
      exact hTc ev hm
  | none =>
      dsimp only at hm
      rcases hF : wait_for_Field isRunning t1 with ⟨evs2, t2, r2⟩
      have hFc := wait_for_Field_clean isRunning t1
      rw [hF] at hm hFc
      cases r2 with
      | some c =>
          dsimp only at hm
          simp only [List.mem_append] at hm
          rcases hm with hm | hm
          · exact hTc ev hm
          · exact hFc ev hm
      | none =>
          dsimp only at hm
          simp only [List.mem_append, List.mem_singleton] at hm
          rcases hm with (hm | hm) | rfl
          · exact hTc ev hm
          · exact hFc ev hm
          · rfl

theorem processEntry_clean (isRunning : Bool) (tel : ℕ → ℚ)
    (hwOk : EngEvent → Bool) (offset : ℚ) (fuel : ℕ) (e : SeqEntry) (t : ℕ) :
    cleanEvs (processEntry isRunning tel hwOk offset fuel e t).1 := by
  intro ev hm
  rw [processEntry] at hm
  split at hm
  · exact scanTTargets_clean hwOk offset e.sequence_temperature ev hm
  · split at hm
    · exact processWait_clean isRunning tel fuel e t ev hm
    · simp at hm

theorem runEntries_clean (isRunning : Bool) (tel : ℕ → ℚ)
    (hwOk : EngEvent → Bool) (offset : ℚ) (fuel : ℕ) (seq : List SeqEntry) :
    ∀ t, cleanEvs (runEntries isRunning tel hwOk offset fuel seq t).1 := by
  induction seq with
  | nil => intro t ev hm; simp [runEntries] at hm
  | cons e es ih =>
      intro t ev hm
      rw [runEntries] at hm
      rcases hp : processEntry isRunning tel hwOk offset fuel e t with ⟨evs, t', r⟩
      have hpc := processEntry_clean isRunning tel hwOk offset fuel e t
      rw [hp] at hm hpc
      cases r with
      | some c => exact hpc ev hm
      | none =>
          simp only [List.mem_append] at hm
          rcases hm with hm | hm
          · exact hpc ev hm
          · exact ih t' ev hm

/-- C4: however a run ends — all steps completed, cancellation caught,
or a fault raised inside a step — its trace is precisely the four
setpoint-widget disables, then a body containing no enable/disable
event, then the four re-enables: each widget is disabled exactly once
at the start and re-enabled exactly once at the end.  (A convergence
wait that never terminates never ends the run, so it is excluded.) -/
theorem C4_controls_disabled_enabled_once (seq : List SeqEntry)
    (isRunning : Bool) (tel : ℕ → ℚ) (hwOk : EngEvent → Bool) (offset : ℚ)
    (fuel : ℕ)
    (h : (running seq isRunning tel hwOk offset fuel).2 ≠ RunOutcome.hung) :
    ∃ body, (running seq isRunning tel hwOk offset fuel).1
        = disableEvents ++ body ++ enableEvents
      ∧ cleanEvs body
      ∧ ∀ w : Window,
          (running seq isRunning tel hwOk offset fuel).1.count
            (EngEvent.setEnabled w false) = 1
          ∧ (running seq isRunning tel hwOk offset fuel).1.count
            (EngEvent.setEnabled w true) = 1 := by
  have hcount : ∀ (body : List EngEvent), cleanEvs body → ∀ (w : Window) (b : Bool),
      (disableEvents ++ body ++ enableEvents).count (EngEvent.setEnabled w b) = 1 := by
    intro body hb w b
    rw [List.count_append, List.count_append]
    have h0 : body.count (EngEvent.setEnabled w b) = 0 :=
      List.count_eq_zero.mpr fun hmem => by
        have := hb _ hmem
        simp [isSetEnabledEv] at this
    rw [h0]
    cases w <;> cases b <;> decide
  rcases hr : runEntries isRunning tel hwOk offset fuel seq 0 with ⟨evs, t', r⟩
  have hclean : cleanEvs evs := by
    have := runEntries_clean isRunning tel hwOk offset fuel seq 0
    rw [hr] at this
    exact this
  match r with
  | none =>
      have hR : running seq isRunning tel hwOk offset fuel
          = (disableEvents ++ evs ++ enableEvents, RunOutcome.completed) := by
        rw [running, hr]
      rw [hR]
      exact ⟨evs, rfl, hclean,
        fun w => ⟨hcount evs hclean w false, hcount evs hclean w true⟩⟩
  | some StopCause.brk =>
      have hclean' : cleanEvs (evs ++ [EngEvent.abortedEmit]) := by
        intro ev hm
        simp only [List.mem_append, List.mem_singleton] at hm
        rcases hm with hm | rfl
        · exact hclean ev hm
        · rfl
      have hR : running seq isRunning tel hwOk offset fuel
          = (disableEvents ++ (evs ++ [EngEvent.abortedEmit]) ++ enableEvents,
             RunOutcome.aborted) := by
        rw [running, hr]
        simp
      rw [hR]
      exact ⟨evs ++ [EngEvent.abortedEmit], rfl, hclean',
        fun w => ⟨hcount _ hclean' w false, hcount _ hclean' w true⟩⟩
  | some StopCause.fault =>
      have hR : running seq isRunning tel hwOk offset fuel
          = (disableEvents ++ evs ++ enableEvents, RunOutcome.faulted) := by
        rw [running, hr]
      rw [hR]
      exact ⟨evs, rfl, hclean,
        fun w => ⟨hcount evs hclean w false, hcount evs hclean w true⟩⟩
  | some StopCause.hung =>
      have hR : running seq isRunning tel hwOk offset fuel
          = (disableEvents ++ evs, RunOutcome.hung) := by
        rw [running, hr]
      rw [hR] at h
      exact absurd rfl h

/-- Witness for `C4_controls_disabled_enabled_once` on a concrete
completed run. -/
theorem C4_controls_disabled_enabled_once_witness :
    (running [] true (fun _ => 0) (fun _ => true) 5 0).2 ≠ RunOutcome.hung ∧
    ∃ body, (running [] true (fun _ => 0) (fun _ => true) 5 0).1
        = disableEvents ++ body ++ enableEvents
      ∧ cleanEvs body
      ∧ ∀ w : Window,
          (running [] true (fun _ => 0) (fun _ => true) 5 0).1.count
            (EngEvent.setEnabled w false) = 1
          ∧ (running [] true (fun _ => 0) (fun _ => true) 5 0).1.count
            (EngEvent.setEnabled w true) = 1 :=
  ⟨by decide,
   C4_controls_disabled_enabled_once [] true (fun _ => 0) (fun _ => true) 5 0
     (by decide)⟩

end CryostatGUI
